import Mathlib

/-!
Verification model of the novis reverse-proxy gateway (novis.go, utils.go).

The Go source is shallowly embedded: the registry map becomes an association
list, Go `string` operations are modelled on `List Char`, external effects
(redis writes, TCP dials, `url.Parse` from the stdlib) become explicit oracle
parameters, and a nil-pointer dereference is modelled as `Option.none`.
-/

namespace NovisModel

/-! ### Go string primitives (strings.Trim, ToLower, Split, HasPrefix, Replace) -/

/-- Model of `strings.ToLower` (ASCII case mapping). -/
def goToLower (s : String) : String :=
  String.mk (s.data.map Char.toLower)

/-- Model of `strings.Trim(s, "/")`: drop leading and trailing slashes. -/
def trimSlashes (s : String) : String :=
  String.mk (((s.data.dropWhile (fun c => c = '/')).reverse.dropWhile
    (fun c => c = '/')).reverse)

/-- Model of `strings.HasPrefix p s`-style check on char lists:
`goPfx p s = true` iff `p` is a literal prefix of `s`. -/
def goPfx : List Char → List Char → Bool
  | [], _ => true
  | _ :: _, [] => false
  | p :: ps, c :: cs => p = c && goPfx ps cs

/-- Model of `strings.HasPrefix (s, pre)`. -/
def goHasPfx (s pre : String) : Bool :=
  goPfx pre.data s.data

/-- Model of `strings.Split(s, "/")` on char lists: split at every slash. -/
def goSplitAux (cur : List Char) : List Char → List (List Char)
  | [] => [cur.reverse]
  | c :: rest =>
    if c = '/' then cur.reverse :: goSplitAux [] rest
    else goSplitAux (c :: cur) rest

/-- Model of `strings.Split(s, "/")`. -/
def goSplitSlash (s : String) : List String :=
  (goSplitAux [] s.data).map String.mk

/-- Model of `strings.Replace(s, old, new, 1)`: replace the first occurrence
of `old` (for empty `old`, Go inserts `new` at the front). -/
def replaceFirstAux (old new : List Char) : List Char → List Char
  | [] => if old.isEmpty then new else []
  | c :: rest =>
    if goPfx old (c :: rest) then new ++ (c :: rest).drop old.length
    else c :: replaceFirstAux old new rest

/-- Model of `strings.Replace(s, old, new, 1)` on `String`. -/
def goReplaceOnce (s old new : String) : String :=
  String.mk (replaceFirstAux old.data new.data s.data)

/-- Model of `removeEmptyStr` (utils.go): keep only non-empty strings. -/
def removeEmptyStr (l : List String) : List String :=
  l.filter (fun s => 0 < s.length)

/-! ### Data model -/

/-- `type ServiceStatus string` in the source: statuses are strings, with the
Go zero value being the empty string. -/
abbrev ServiceStatus := String

/-- `UP ServiceStatus = "UP"`. -/
def UP : ServiceStatus := "UP"

/-- `DOWN ServiceStatus = "DOWN"`. -/
def DOWN : ServiceStatus := "DOWN"

/-- `PAUSE ServiceStatus = "PAUSE"`. -/
def PAUSE : ServiceStatus := "PAUSE"

/-- `CHECKING ServiceStatus = "CHECKING"`. -/
def CHECKING : ServiceStatus := "CHECKING"

/-- A `Service` record.  The unexported `reverseProxy *httputil.ReverseProxy`
is modelled by the host string the proxy transport was built from; `mux` is
a lock and has no sequential content. -/
structure Service where
  host : String
  path : String
  status : ServiceStatus
  healthCheckURL : String
  reverseProxy : String
deriving DecidableEq, Repr

/-- The exported fields of `Service`, as serialized by `json.Marshal`
(`Host`, `Path`, `Status`, `HealthCheckURL`; the unexported proxy and lock
are skipped).  Also the shape decoded from a discovery request body. -/
structure SnapService where
  host : String
  path : String
  status : ServiceStatus
  healthCheckURL : String
deriving DecidableEq, Repr

/-- A parsed URL, as far as the gateway uses it (`sURL.Host`). -/
structure URL where
  host : String
deriving DecidableEq, Repr

/-- The registry `map[string]*Service`, as an association list. -/
abbrev Registry := List (String × Service)

/-- Go map read `r[k]`: first binding of `k`, if any. -/
def lookupSvc : Registry → String → Option Service
  | [], _ => none
  | (k', s) :: rest, k => if k' = k then some s else lookupSvc rest k

/-- Go map write `r[k] = s`: overwrite the binding of `k`, or append it. -/
def insertSvc : Registry → String → Service → Registry
  | [], k, s => [(k, s)]
  | (k', s') :: rest, k, s =>
    if k' = k then (k, s) :: rest else (k', s') :: insertSvc rest k s

/-- Go map `delete(r, k)`: remove the binding of `k`. -/
def eraseSvc : Registry → String → Registry
  | [], _ => []
  | (k', s') :: rest, k => if k' = k then rest else (k', s') :: eraseSvc rest k

/-! ### Registry operations (novis.go) -/

/-- The exported fields of a `Service`, as `json.Marshal` serializes them. -/
def snapOfService (s : Service) : SnapService :=
  { host := s.host, path := s.path, status := s.status,
    healthCheckURL := s.healthCheckURL }

/-- `UpdateStorage`: `json.Marshal(n.services)` — the snapshot payload written
under the fixed key.  Only the exported fields survive marshalling; whether
the redis `Set` succeeds is an oracle supplied where needed. -/
def UpdateStorage (r : Registry) : List (String × SnapService) :=
  r.map (fun kv => (kv.1, snapOfService kv.2))

/-- `AddService`: trim the service path; if non-empty, write
`services[ToLower(p)] = service`, run `UpdateStorage` (its error `storeErr`
is bound to `err` and then discarded), and `return nil`; else `return nil`.
Result: (new registry, returned error). -/
def AddService (storeErr : Option String) (r : Registry) (service : Service) :
    Registry × Option String :=
  let p := trimSlashes service.path
  if 0 < p.length then
    let r' := insertSvc r (goToLower p) service
    let _err := storeErr
    (r', none)
  else
    (r, none)

/-- `RemoveService`: split the path hint on `/`, take `p[0]` (the first
segment, empty when the hint starts with a slash), lower-case it, and delete
the binding if present, running `UpdateStorage` and returning its error.
Result: (new registry, snapshot write attempted, returned error). -/
def RemoveService (storeErr : Option String) (r : Registry) (service : Service) :
    Registry × Bool × Option String :=
  match goSplitSlash service.path with
  | [] => (r, false, none)
  | p0 :: _ =>
    let lp := goToLower p0
    match lookupSvc r lp with
    | some _ => (eraseSvc r lp, true, storeErr)
    | none => (r, false, none)

/-- `PauseService`: `n.services[ToLower(p[0])].SetStatus(PAUSE)` — the map
read is dereferenced without a presence check, so an absent key is a nil
pointer dereference, modelled as `none`. -/
def PauseService (r : Registry) (service : Service) : Option Registry :=
  match goSplitSlash service.path with
  | [] => some r
  | p0 :: _ =>
    let lp := goToLower p0
    match lookupSvc r lp with
    | some s => some (insertSvc r lp { s with status := PAUSE })
    | none => none

/-- `ResumeService`: `n.services[ToLower(p[0])].SetStatus(CHECKING)`, with the
same unguarded dereference as `PauseService`. -/
def ResumeService (r : Registry) (service : Service) : Option Registry :=
  match goSplitSlash service.path with
  | [] => some r
  | p0 :: _ =>
    let lp := goToLower p0
    match lookupSvc r lp with
    | some s => some (insertSvc r lp { s with status := CHECKING })
    | none => none

/-- The service record built inside the `LoadFromStorage` loop from one
deserialized value `v`: `Path`, `Host`, `HealthCheckURL` are copied, the
proxy is rebuilt from `url.Parse(v.GetHost())`, and `Status` is omitted from
the struct literal, so it is the Go zero value `""`. -/
def loadService (v : SnapService) : Service :=
  { path := v.path, host := v.host, healthCheckURL := v.healthCheckURL,
    status := "", reverseProxy := v.host }

/-- `LoadFromStorage` given an already-deserialized snapshot: iterate over the
map's values, `url.Parse` each host (aborting with the error if it fails) and
`AddService` the rebuilt record.  Result: (registry, returned error). -/
def LoadFromStorage (parse : String → Option URL)
    (snap : List (String × SnapService)) (r : Registry) :
    Registry × Option String :=
  match snap with
  | [] => (r, none)
  | (_, v) :: rest =>
    match parse v.host with
    | none => (r, some "url parse error")
    | some _ =>
      let r' := (AddService none r (loadService v)).1
      LoadFromStorage parse rest r'

/-- The `initialServices` seeding loop of `NewFromConfig` (the key is
`strings.Trim(path, "/")`, NOT lower-cased; the status is `CHECKING`). -/
def NewFromConfigServices (cfg : List SnapService) : Registry :=
  cfg.foldl
    (fun acc c =>
      insertSvc acc (trimSlashes c.path)
        { host := c.host, path := c.path, healthCheckURL := c.healthCheckURL,
          reverseProxy := c.host, status := CHECKING })
    []

/-! ### Health checking -/

/-- `isServiceAlive`: `net.DialTimeout("tcp", u, 3*time.Second)`; the dial
outcome is an oracle `dial url timeoutSeconds`.  Success yields `UP`,
failure or timeout yields `DOWN`. -/
def isServiceAlive (dial : String → Nat → Bool) (u : String) : ServiceStatus :=
  if dial u 3 then UP else DOWN

/-- One service's treatment inside a `healthCheck` tick: skip `PAUSE`d
services; otherwise probe, and only when the probed status differs from the
current one, set it and run `UpdateStorage`.  Result: (service after the
tick, whether a snapshot write was triggered). -/
def healthTickService (dial : String → Nat → Bool) (s : Service) :
    Service × Bool :=
  let currentStatus := s.status
  if currentStatus ≠ PAUSE then
    let status := isServiceAlive dial s.healthCheckURL
    if currentStatus ≠ status then ({ s with status := status }, true)
    else (s, false)
  else (s, false)

/-- One full tick of the `healthCheck` loop over the registry.  Result:
(registry after the tick, number of snapshot writes triggered). -/
def healthCheckTick (dial : String → Nat → Bool) : Registry → Registry × Nat
  | [] => ([], 0)
  | (k, s) :: rest =>
    let p := healthTickService dial s
    let q := healthCheckTick dial rest
    ((k, p.1) :: q.1, (if p.2 then 1 else 0) + q.2)

/-! ### HTTP layer -/

/-- An inbound HTTP request, as far as the gateway inspects it: method, URL
path, and the JSON body (`none` models a body `json.Decode` fails on). -/
structure Request where
  method : String
  urlPath : String
  body : Option SnapService
deriving DecidableEq, Repr

/-- Outcome of the `discovery` handler: HTTP status codes written (in
order — the source can write more than one), the registry afterwards, and
the returned error. -/
structure DiscoveryResult where
  responses : List Nat
  registry : Registry
  err : Option String
deriving DecidableEq, Repr

/-- Body-processing part of `discovery` (everything after the segment/method
checks; `pre` holds status codes already written before falling through). -/
def discoveryBody (parse : String → Option URL) (pre : List Nat)
    (req : Request) (r : Registry) : DiscoveryResult :=
  match req.body with
  | none => { responses := pre ++ [400], registry := r, err := some "decode error" }
  | some b =>
    if b.healthCheckURL.length = 0 then
      { responses := pre ++ [400], registry := r,
        err := some "Discovery request health check url is not valid" }
    else
      match parse b.host with
      | none => { responses := pre ++ [400], registry := r, err := some "url parse error" }
      | some _ =>
        let svc : Service :=
          { host := b.host, path := b.path, status := CHECKING,
            healthCheckURL := b.healthCheckURL, reverseProxy := b.host }
        { responses := pre, registry := (AddService none r svc).1, err := none }

/-- The `discovery` handler.  The segment-count branch writes `404` but has no
`return`, so control falls through into body processing; the method branch
writes `405` and returns. -/
def discovery (parse : String → Option URL) (req : Request) (r : Registry) :
    DiscoveryResult :=
  let paths := removeEmptyStr (goSplitSlash req.urlPath)
  if paths.length ≠ 1 then
    discoveryBody parse [404] req r
  else if goToLower req.method ≠ "post" then
    { responses := [405], registry := r,
      err := some "Discovery request method not allowed" }
  else
    discoveryBody parse [] req r

/-- `findServiceInMap`: scan the registry keys and return the first key `k`
with `HasPrefix(ToLower(path), ToLower(k))`, else `""`. -/
def findServiceInMap : Registry → String → String
  | [], _ => ""
  | (k, _) :: rest, path =>
    if goHasPfx (goToLower path) (goToLower k) then k
    else findServiceInMap rest path

/-- Outcome of `proxyRequest`: a plain status response, delegation to the
discovery handler, or a forward with the rewritten outbound path, the
outbound `Host`, and the pre-built reverse proxy it is served through. -/
inductive ProxyOutcome where
  | respond (status : Nat)
  | delegate (d : DiscoveryResult)
  | forward (outPath : String) (outHost : String) (proxy : String)
deriving DecidableEq, Repr

/-- `proxyRequest`: trim the path; empty ⇒ `200`; path equal to
`ToLower(DiscoveryURL)` ⇒ delegate to `discovery`; otherwise look up the key
`findServiceInMap` returned: absent ⇒ `404`, present but not `UP` ⇒ `404`,
`url.Parse` failure ⇒ `502`, else strip the first occurrence of
`"/" + s.Path` from the path, set the host from the parsed URL, and forward
through the service's reverse proxy. -/
def proxyRequest (parse : String → Option URL) (discoveryURL : String)
    (r : Registry) (req : Request) : ProxyOutcome :=
  let paths := trimSlashes req.urlPath
  if 0 < paths.length then
    let sn := findServiceInMap r paths
    if paths = goToLower discoveryURL then
      ProxyOutcome.delegate (discovery parse req r)
    else
      match lookupSvc r sn with
      | some s =>
        if s.status ≠ UP then ProxyOutcome.respond 404
        else
          match parse s.host with
          | none => ProxyOutcome.respond 502
          | some u =>
            ProxyOutcome.forward (goReplaceOnce req.urlPath ("/" ++ s.path) "")
              u.host s.reverseProxy
      | none => ProxyOutcome.respond 404
  else
    ProxyOutcome.respond 200

/-! ### Concrete instances used by witnesses and counterexamples -/

/-- A `url.Parse` oracle that succeeds on every host, yielding host `u`. -/
def parse0 : String → Option URL := fun _ => some { host := "u" }

/-- A dial oracle for which every probe connection succeeds. -/
def dialUp : String → Nat → Bool := fun _ _ => true

/-- An upstream registered under key `orders` with stored path `orders`. -/
def svcOrders : Service :=
  { host := "http://u", path := "orders", status := UP,
    healthCheckURL := "h:1", reverseProxy := "http://u" }

/-- A registry holding only `svcOrders`. -/
def regOrders : Registry := [("orders", svcOrders)]

/-- An upstream whose stored path `Orders` differs in case from its registry
key `orders` (as produced by `AddService` on a mixed-case registration). -/
def svcMixed : Service :=
  { host := "http://u", path := "Orders", status := UP,
    healthCheckURL := "h:1", reverseProxy := "http://u" }

/-- A registry holding `svcMixed` under the lower-cased key. -/
def regMixed : Registry := [("orders", svcMixed)]

/-- A freshly added service, still `CHECKING`. -/
def svcChecking : Service :=
  { host := "http://u", path := "orders", status := CHECKING,
    healthCheckURL := "h:1", reverseProxy := "http://u" }

/-- A registry holding only `svcChecking`. -/
def regChecking : Registry := [("orders", svcChecking)]

/-- An operator-paused service. -/
def svcPaused : Service :=
  { host := "http://u", path := "orders", status := PAUSE,
    healthCheckURL := "h:1", reverseProxy := "http://u" }

/-- The snapshot record of `svcOrders`. -/
def snapOrders : SnapService :=
  { host := "http://u", path := "orders", status := UP, healthCheckURL := "h:1" }

/-- A one-service static configuration whose path is mixed-case. -/
def cfgUpper : List SnapService :=
  [{ host := "http://u", path := "/Orders", status := "", healthCheckURL := "h:1" }]

/-- GET request for `/orders/123`. -/
def reqOrders : Request := { method := "GET", urlPath := "/orders/123", body := none }

/-- GET request for a path that matches no registered key. -/
def reqMiss : Request := { method := "GET", urlPath := "/nope/1", body := none }

/-- GET request for `/orders`. -/
def reqOrdersRoot : Request := { method := "GET", urlPath := "/orders", body := none }

/-- GET request for `/DISCOVERY`. -/
def reqUpperDisc : Request := { method := "GET", urlPath := "/DISCOVERY", body := none }

/-- GET request for `/discovery`. -/
def reqLowerDisc : Request := { method := "GET", urlPath := "/discovery", body := none }

/-- POST registration of a `billing` upstream sent to a two-segment
discovery path. -/
def reqBadSeg : Request :=
  { method := "POST", urlPath := "/api/discovery",
    body := some { host := "http://x", path := "billing", status := "",
                   healthCheckURL := "x:80" } }

/-- POST registration of a `billing` upstream sent to `/discovery`. -/
def reqReg : Request :=
  { method := "POST", urlPath := "/discovery",
    body := some { host := "http://x", path := "billing", status := "",
                   healthCheckURL := "x:80" } }

/-- The `billing` service as the discovery handler inserts it. -/
def svcBilling : Service :=
  { host := "http://x", path := "billing", status := CHECKING,
    healthCheckURL := "x:80", reverseProxy := "http://x" }

/-- A removal hint whose path starts with a slash. -/
def hintSlashOrders : Service :=
  { host := "", path := "/orders", status := "", healthCheckURL := "",
    reverseProxy := "" }

/-- An upstream registered under key `ord`, a key that is also a literal
leading pattern of `orders`. -/
def svcOrd : Service :=
  { host := "http://v", path := "ord", status := UP,
    healthCheckURL := "h:2", reverseProxy := "http://v" }

/-- A registry holding both `ord` and `orders`. -/
def regOrdPair : Registry := [("ord", svcOrd), ("orders", svcOrders)]

/-- The decoded discovery body registering `billing`. -/
def bBilling : SnapService :=
  { host := "http://x", path := "billing", status := "", healthCheckURL := "x:80" }

/-- `svcOrders` as rebuilt by the snapshot-load loop: same `host`, `path`
and `healthCheckURL`, but the zero-value empty status. -/
def svcLoaded : Service :=
  { host := "http://u", path := "orders", status := "", healthCheckURL := "h:1",
    reverseProxy := "http://u" }

/-! ### Helper lemmas about the registry primitives -/

/-- Reading back the key just written. -/
theorem lookupSvc_insertSvc (r : Registry) (k k' : String) (s : Service) :
    lookupSvc (insertSvc r k s) k' = if k = k' then some s else lookupSvc r k' := by
  induction r with
  | nil => simp [insertSvc, lookupSvc]
  | cons kv rest ih =>
    obtain ⟨k0, s0⟩ := kv
    by_cases h0 : k0 = k
    · subst h0
      by_cases h1 : k0 = k'
      · subst h1; simp [insertSvc, lookupSvc]
      · simp [insertSvc, lookupSvc, h1]
    · by_cases h1 : k0 = k'
      · subst h1
        have : k ≠ k0 := fun h => h0 h.symm
        simp [insertSvc, lookupSvc, h0, this]
      · simp [insertSvc, lookupSvc, h0, h1, ih]

/-- Inserting an absent key appends the binding. -/
theorem insertSvc_of_lookup_none (r : Registry) (k : String) (s : Service)
    (h : lookupSvc r k = none) : insertSvc r k s = r ++ [(k, s)] := by
  induction r with
  | nil => simp [insertSvc]
  | cons kv rest ih =>
    obtain ⟨k0, s0⟩ := kv
    by_cases h0 : k0 = k
    · subst h0; simp [lookupSvc] at h
    · simp [lookupSvc, h0] at h
      simp [insertSvc, h0, ih h]

/-- A successful lookup is a membership. -/
theorem lookupSvc_mem {r : Registry} {k : String} {s : Service}
    (h : lookupSvc r k = some s) : (k, s) ∈ r := by
  induction r with
  | nil => simp [lookupSvc] at h
  | cons kv rest ih =>
    obtain ⟨k0, s0⟩ := kv
    by_cases h0 : k0 = k
    · subst h0
      simp [lookupSvc] at h
      simp [h]
    · simp [lookupSvc, h0] at h
      exact List.mem_cons_of_mem _ (ih h)

/-- A key that is absent from the key list looks up to `none`. -/
theorem lookupSvc_eq_none_of_not_mem {r : Registry} {k : String}
    (h : k ∉ r.map Prod.fst) : lookupSvc r k = none := by
  induction r with
  | nil => simp [lookupSvc]
  | cons kv rest ih =>
    obtain ⟨k0, s0⟩ := kv
    have h0 : k0 ≠ k := by
      intro hh
      exact h (by simp [hh])
    have h1 : k ∉ rest.map Prod.fst := by
      intro hh
      exact h (by simp [hh])
    simp [lookupSvc, h0, ih h1]

/-- Membership in an insertion comes from the new pair or the old registry. -/
theorem mem_insertSvc {r : Registry} {k k' : String} {s s' : Service}
    (h : (k', s') ∈ insertSvc r k s) : (k', s') = (k, s) ∨ (k', s') ∈ r := by
  induction r with
  | nil => simpa [insertSvc] using h
  | cons kv rest ih =>
    obtain ⟨k0, s0⟩ := kv
    by_cases h0 : k0 = k
    · subst h0
      simp [insertSvc] at h
      rcases h with h | h
      · exact Or.inl (by simp [h])
      · exact Or.inr (List.mem_cons_of_mem _ h)
    · simp [insertSvc, h0] at h
      rcases h with h | h
      · exact Or.inr (by simp [h])
      · rcases ih h with h' | h'
        · exact Or.inl h'
        · exact Or.inr (List.mem_cons_of_mem _ h')

/-- Erasure only drops entries. -/
theorem mem_of_mem_eraseSvc {r : Registry} {k k' : String} {s' : Service}
    (h : (k', s') ∈ eraseSvc r k) : (k', s') ∈ r := by
  induction r with
  | nil => simp [eraseSvc] at h
  | cons kv rest ih =>
    obtain ⟨k0, s0⟩ := kv
    by_cases h0 : k0 = k
    · subst h0
      simp [eraseSvc] at h
      exact List.mem_cons_of_mem _ h
    · simp [eraseSvc, h0] at h
      rcases h with h | h
      · simp [h]
      · exact List.mem_cons_of_mem _ (ih h)

/-- With no duplicate keys, nothing left after erasing `k` carries key `k`. -/
theorem key_ne_of_mem_eraseSvc {r : Registry} {k k' : String} {s' : Service}
    (hnd : (r.map Prod.fst).Nodup) (h : (k', s') ∈ eraseSvc r k) : k' ≠ k := by
  induction r with
  | nil => simp [eraseSvc] at h
  | cons kv rest ih =>
    obtain ⟨k0, s0⟩ := kv
    rw [List.map_cons, List.nodup_cons] at hnd
    by_cases h0 : k0 = k
    · have hrest : (k', s') ∈ rest := by
        simpa [eraseSvc, h0] using h
      intro hk
      apply hnd.1
      have hmem : (k', s').1 ∈ rest.map Prod.fst := List.mem_map_of_mem Prod.fst hrest
      rw [hk, ← h0] at hmem
      exact hmem
    · simp [eraseSvc, h0] at h
      rcases h with h | h
      · rcases h with ⟨h1, _⟩
        subst h1
        exact h0
      · exact ih hnd.2 h

/-- `findServiceInMap` misses when no registered key is a prefix of the
lower-cased path. -/
theorem findServiceInMap_eq_empty {r : Registry} {path : String}
    (h : ∀ kv ∈ r, goHasPfx (goToLower path) (goToLower kv.1) = false) :
    findServiceInMap r path = "" := by
  induction r with
  | nil => simp [findServiceInMap]
  | cons kv rest ih =>
    obtain ⟨k0, s0⟩ := kv
    have h0 := h (k0, s0) (List.mem_cons_self _ _)
    simp [findServiceInMap, h0]
    exact ih fun kv hkv => h kv (List.mem_cons_of_mem _ hkv)

/-! ### Helper lemmas about the string primitives -/

/-- `goPfx p s` holds exactly when `s` literally extends `p`. -/
theorem goPfx_iff (p s : List Char) : goPfx p s = true ↔ ∃ t, s = p ++ t := by
  induction p generalizing s with
  | nil => simp [goPfx]
  | cons c cs ih =>
    cases s with
    | nil =>
      simp [goPfx]
    | cons d ds =>
      simp only [goPfx, Bool.and_eq_true, decide_eq_true_eq, ih, List.cons_append]
      constructor
      · rintro ⟨h1, t, h2⟩
        subst h1
        exact ⟨t, by rw [h2]⟩
      · rintro ⟨t, ht⟩
        injection ht with h1 h2
        subst h1
        exact ⟨rfl, t, h2⟩

/-- Replacing the first occurrence of a literal leading pattern drops it. -/
theorem replaceFirstAux_of_pfx {old s : List Char} (new : List Char)
    (h : goPfx old s = true) :
    replaceFirstAux old new s = new ++ s.drop old.length := by
  cases s with
  | nil =>
    rcases (goPfx_iff old []).1 h with ⟨t, ht⟩
    rcases List.append_eq_nil.1 ht.symm with ⟨h1, _⟩
    subst h1
    simp [replaceFirstAux]
  | cons c cs =>
    simp [replaceFirstAux, h]

/-- Gluing the dropped pattern back on recovers the original list. -/
theorem pfx_append_drop {old s : List Char} (h : goPfx old s = true) :
    old ++ s.drop old.length = s := by
  rcases (goPfx_iff old s).1 h with ⟨t, ht⟩
  subst ht
  simp

/-- String level: when `old` is a literal leading pattern of `s`, replacing
its first occurrence with `""` strips it exactly once from the front. -/
theorem goReplaceOnce_strip {s old : String} (h : goHasPfx s old = true) :
    old ++ goReplaceOnce s old "" = s := by
  apply String.ext
  rw [String.data_append]
  show old.data ++ replaceFirstAux old.data [] s.data = s.data
  rw [replaceFirstAux_of_pfx [] h]
  exact pfx_append_drop h

/-- Looking up in a value-transformed registry. -/
theorem lookupSvc_map (g : Service → Service) (r : Registry) (k : String) :
    lookupSvc (r.map (fun kv => (kv.1, g kv.2))) k = (lookupSvc r k).map g := by
  induction r with
  | nil => simp [lookupSvc]
  | cons kv rest ih =>
    obtain ⟨k0, s0⟩ := kv
    by_cases h0 : k0 = k
    · simp [lookupSvc, h0]
    · simp [lookupSvc, h0, ih]

/-- Lookup walks past a block that does not hold the key. -/
theorem lookupSvc_append_of_none {r1 : Registry} (r2 : Registry) {k : String}
    (h : lookupSvc r1 k = none) : lookupSvc (r1 ++ r2) k = lookupSvc r2 k := by
  induction r1 with
  | nil => simp
  | cons kv rest ih =>
    obtain ⟨k0, s0⟩ := kv
    by_cases h0 : k0 = k
    · simp [lookupSvc, h0] at h
    · simp [lookupSvc, h0] at h ⊢
      exact ih h

/-- Structure of `LoadFromStorage`: when every host parses, every trimmed
path is non-empty, the derived keys are distinct and absent from the
accumulator, loading appends the rebuilt bindings in order. -/
theorem LoadFromStorage_eq_append (parse : String → Option URL) :
    ∀ (snap : List (String × SnapService)) (acc : Registry),
    (∀ kv ∈ snap, (parse kv.2.host).isSome) →
    (∀ kv ∈ snap, 0 < (trimSlashes kv.2.path).length) →
    (∀ kv ∈ snap, lookupSvc acc (goToLower (trimSlashes kv.2.path)) = none) →
    (snap.map (fun kv => goToLower (trimSlashes kv.2.path))).Nodup →
    LoadFromStorage parse snap acc =
      (acc ++ snap.map (fun kv => (goToLower (trimSlashes kv.2.path), loadService kv.2)),
       none)
  | [], acc, _, _, _, _ => by simp [LoadFromStorage]
  | (k0, v) :: rest, acc, hparse, hlen, habs, hnd => by
    have hp : (parse v.host).isSome := hparse (k0, v) (List.mem_cons_self _ _)
    obtain ⟨u, hu⟩ := Option.isSome_iff_exists.1 hp
    have hl : 0 < (trimSlashes v.path).length :=
      hlen (k0, v) (List.mem_cons_self _ _)
    have ha : lookupSvc acc (goToLower (trimSlashes v.path)) = none :=
      habs (k0, v) (List.mem_cons_self _ _)
    have hstep :
        (AddService none acc (loadService v)).1 =
          acc ++ [(goToLower (trimSlashes v.path), loadService v)] := by
      simp only [AddService, loadService, hl, if_pos]
      exact insertSvc_of_lookup_none acc _ _ ha
    rw [List.map_cons, List.nodup_cons] at hnd
    have hrec :=
      LoadFromStorage_eq_append parse rest
        (acc ++ [(goToLower (trimSlashes v.path), loadService v)])
        (fun kv hkv => hparse kv (List.mem_cons_of_mem _ hkv))
        (fun kv hkv => hlen kv (List.mem_cons_of_mem _ hkv))
        (fun kv hkv => by
          have h1 : lookupSvc acc (goToLower (trimSlashes kv.2.path)) = none :=
            habs kv (List.mem_cons_of_mem _ hkv)
          rw [lookupSvc_append_of_none _ h1]
          have hne : goToLower (trimSlashes v.path) ≠ goToLower (trimSlashes kv.2.path) := by
            intro hh
            exact hnd.1 (by
              rw [hh]
              exact List.mem_map_of_mem _ hkv)
          simp [lookupSvc, hne])
        hnd.2
    simp only [LoadFromStorage, hu, hstep, hrec, List.map_cons]
    simp

/-! ### Claim C9 -/

/-- Claim C9: when the snapshot write triggered by `AddService` fails, the
in-memory registry still holds the new entry at `lower(trim(path, "/"))` and
the call still reports success — the persistence error is neither surfaced
to the caller nor used to roll back the insert. -/
theorem addService_insert_survives_snapshot_failure
    (r : Registry) (service : Service) (e : String)
    (h : 0 < (trimSlashes service.path).length) :
    (AddService (some e) r service).2 = none ∧
    lookupSvc (AddService (some e) r service).1
      (goToLower (trimSlashes service.path)) = some service := by
  constructor
  · simp [AddService, h]
  · simp [AddService, h, lookupSvc_insertSvc]

/-- Witness for C9: a failing store write still leaves `svcOrders` inserted
and the call reporting success. -/
theorem addService_insert_survives_snapshot_failure_witness :
    (AddService (some "redis down") [] svcOrders).2 = none ∧
    lookupSvc (AddService (some "redis down") [] svcOrders).1
      (goToLower (trimSlashes svcOrders.path)) = some svcOrders :=
  addService_insert_survives_snapshot_failure [] svcOrders "redis down" (by decide)

/-! ### Claim C10 -/

/-- Claim C10: `PauseService` and `ResumeService` are total only when the
resolved key (`lower` of the first `/`-split segment) is registered; on an
unknown key they dereference the absent map entry — a nil pointer, modelled
as `none` — whereas `RemoveService` on the same hint is a no-op returning
success. -/
theorem pause_resume_panic_on_unknown_key
    (r : Registry) (service : Service) (storeErr : Option String)
    (p0 : String) (ps : List String)
    (hsplit : goSplitSlash service.path = p0 :: ps)
    (habs : lookupSvc r (goToLower p0) = none) :
    PauseService r service = none ∧
    ResumeService r service = none ∧
    RemoveService storeErr r service = (r, false, none) := by
  refine ⟨?_, ?_, ?_⟩ <;>
    simp [PauseService, ResumeService, RemoveService, hsplit, habs]

/-- Witness for C10: the hint `billing` resolves to no key of `regOrders`,
so pause and resume hit the nil dereference while remove is a no-op. -/
theorem pause_resume_panic_on_unknown_key_witness :
    PauseService regOrders svcBilling = none ∧
    ResumeService regOrders svcBilling = none ∧
    RemoveService (some "e") regOrders svcBilling = (regOrders, false, none) :=
  pause_resume_panic_on_unknown_key regOrders svcBilling (some "e") "billing" []
    (by decide) (by decide)

/-! ### Claim C8 -/

/-- Counterexample to claim C8 as stated: with the discovery path configured
as `discovery`, the request `/DISCOVERY` has a trimmed, lower-cased path
equal to the configured path, yet the router does not delegate to the
discovery handler — it answers 404, because the code compares the trimmed
path without lower-casing it against `ToLower(DiscoveryURL)`. -/
theorem uppercase_request_path_not_delegated :
    goToLower (trimSlashes reqUpperDisc.urlPath) = "discovery" ∧
    proxyRequest parse0 "discovery" [] reqUpperDisc = ProxyOutcome.respond 404 ∧
    proxyRequest parse0 "discovery" [] reqUpperDisc ≠
      ProxyOutcome.delegate (discovery parse0 reqUpperDisc []) := by
  refine ⟨rfl, rfl, by decide⟩

/-- Claim C8 (amended): when the trimmed request path — case preserved —
equals the lower-cased configured discovery path, the router delegates to
the discovery handler, regardless of whether that path also matches a
registry key. -/
theorem router_delegates_discovery_path
    (parse : String → Option URL) (discoveryURL : String) (r : Registry)
    (req : Request)
    (h1 : 0 < (trimSlashes req.urlPath).length)
    (h2 : trimSlashes req.urlPath = goToLower discoveryURL) :
    proxyRequest parse discoveryURL r req =
      ProxyOutcome.delegate (discovery parse req r) := by
  have h1' := h1
  rw [h2] at h1'
  simp [proxyRequest, h1, h1', h2]

/-- Witness for C8 (amended): the discovery path `orders` is also a registry
key with an `UP` service, and the request is still delegated. -/
theorem router_delegates_discovery_path_witness :
    proxyRequest parse0 "orders" regOrders reqOrdersRoot =
      ProxyOutcome.delegate (discovery parse0 reqOrdersRoot regOrders) :=
  router_delegates_discovery_path parse0 "orders" regOrders reqOrdersRoot
    (by decide) (by decide)

/-! ### Claim C2 -/

/-- Counterexample to claim C2 as stated: with the discovery path configured
as `Discovery`, the request `/discovery` has a non-empty trimmed path
different from the configured discovery path and matches no registry key,
yet the router does not answer 404 — it delegates to the discovery handler
(which answers 405), because the routing comparison is against
`ToLower(DiscoveryURL)`. -/
theorem router_miss_uppercase_discovery_config_not_404 :
    trimSlashes reqLowerDisc.urlPath = "discovery" ∧
    ("discovery" : String) ≠ "Discovery" ∧
    findServiceInMap [] "discovery" = "" ∧
    proxyRequest parse0 "Discovery" [] reqLowerDisc =
      ProxyOutcome.delegate
        { responses := [405], registry := [],
          err := some "Discovery request method not allowed" } ∧
    proxyRequest parse0 "Discovery" [] reqLowerDisc ≠ ProxyOutcome.respond 404 := by
  refine ⟨rfl, by decide, rfl, rfl, by decide⟩

/-- Claim C2 (amended): for a request with a non-empty trimmed path that
differs from the *lower-cased* discovery path, if `findServiceInMap` yields
no registered key, or the matched service's status is anything but `UP`,
the router responds 404 and forwards nothing. -/
theorem router_responds_404_on_miss_or_not_up
    (parse : String → Option URL) (discoveryURL : String) (r : Registry)
    (req : Request)
    (h1 : 0 < (trimSlashes req.urlPath).length)
    (h2 : trimSlashes req.urlPath ≠ goToLower discoveryURL)
    (h3 : findServiceInMap r (trimSlashes req.urlPath) ∉ r.map Prod.fst ∨
          (∃ s, lookupSvc r (findServiceInMap r (trimSlashes req.urlPath)) = some s ∧
                s.status ≠ UP)) :
    proxyRequest parse discoveryURL r req = ProxyOutcome.respond 404 := by
  rcases h3 with h3 | ⟨s, hs, hup⟩
  · have hn := lookupSvc_eq_none_of_not_mem h3
    simp [proxyRequest, h1, h2, hn]
  · simp [proxyRequest, h1, h2, hs, hup]

/-- Witness for C2 (amended): a still-`CHECKING` service is matched and the
router answers 404. -/
theorem router_responds_404_on_miss_or_not_up_witness :
    proxyRequest parse0 "discovery" regChecking reqOrders =
      ProxyOutcome.respond 404 :=
  router_responds_404_on_miss_or_not_up parse0 "discovery" regChecking reqOrders
    (by decide) (by decide) (Or.inr ⟨svcChecking, by decide, by decide⟩)

/-! ### Claim C1 -/

/-- Counterexample to claim C1 as stated: `svcMixed` is registered under key
`orders` exactly as `AddService` stores a registration whose path field is
`Orders`; the request `/orders/123` resolves via `findServiceInMap` to that
`UP` service, but the forwarded outbound path is the unchanged
`/orders/123`, not the request path with the matched key, preceded by `/`,
stripped exactly once (`/123`): the code strips the stored `Path` field,
which need not coincide with the matched key. -/
theorem proxy_forward_mixed_case_not_stripped :
    findServiceInMap regMixed (trimSlashes reqOrders.urlPath) = "orders" ∧
    lookupSvc regMixed "orders" = some svcMixed ∧
    svcMixed.status = UP ∧
    proxyRequest parse0 "discovery" regMixed reqOrders =
      ProxyOutcome.forward "/orders/123" "u" "http://u" ∧
    goReplaceOnce reqOrders.urlPath ("/" ++ "orders") "" = "/123" ∧
    ("/orders/123" : String) ≠ "/123" := by
  refine ⟨rfl, rfl, rfl, rfl, rfl, by decide⟩

/-- Claim C1 (amended): when the trimmed path is non-empty and is not the
(lower-cased) discovery path, `findServiceInMap` resolves to a registered
`UP` service whose stored path equals the matched key, the upstream host
parses, and `/` + that key literally leads the request path, the request is
forwarded through the service's pre-built reverse proxy with the outbound
host set from the parsed upstream URL and the outbound path equal to the
request path with `/` + the matched key stripped exactly once from the
front. -/
theorem proxy_forward_strips_matched_path_once
    (parse : String → Option URL) (discoveryURL : String) (r : Registry)
    (req : Request) (s : Service) (u : URL)
    (h1 : 0 < (trimSlashes req.urlPath).length)
    (h2 : trimSlashes req.urlPath ≠ goToLower discoveryURL)
    (hfind : findServiceInMap r (trimSlashes req.urlPath) = s.path)
    (hlk : lookupSvc r s.path = some s)
    (hup : s.status = UP)
    (hparse : parse s.host = some u)
    (hpfx : goHasPfx req.urlPath ("/" ++ s.path) = true) :
    proxyRequest parse discoveryURL r req =
      ProxyOutcome.forward (goReplaceOnce req.urlPath ("/" ++ s.path) "")
        u.host s.reverseProxy ∧
    ("/" ++ s.path) ++ goReplaceOnce req.urlPath ("/" ++ s.path) "" =
      req.urlPath := by
  constructor
  · simp [proxyRequest, h1, h2, hfind, hlk, hup, hparse]
  · exact goReplaceOnce_strip hpfx

/-- Witness for C1 (amended): `/orders/123` is forwarded as `/123` to the
`orders` upstream. -/
theorem proxy_forward_strips_matched_path_once_witness :
    (proxyRequest parse0 "discovery" regOrders reqOrders =
      ProxyOutcome.forward (goReplaceOnce reqOrders.urlPath ("/" ++ svcOrders.path) "")
        ({ host := "u" } : URL).host svcOrders.reverseProxy ∧
    ("/" ++ svcOrders.path) ++ goReplaceOnce reqOrders.urlPath ("/" ++ svcOrders.path) "" =
      reqOrders.urlPath) :=
  proxy_forward_strips_matched_path_once parse0 "discovery" regOrders reqOrders
    svcOrders { host := "u" } (by decide) (by decide) (by decide) (by decide)
    rfl rfl (by decide)

/-! ### Claim C4 -/

/-- Claim C4: on a health-check tick, a `PAUSE`d service is skipped with its
status unchanged; any other service is probed by a transport-layer dial of
its `healthCheckURL` with the 3-second timeout, ends the tick with status
`UP` on success and `DOWN` on failure, and triggers a full-registry snapshot
write exactly when that resulting status differs from the previously stored
one; the tick applies this to every registered service, counting one write
per change. -/
theorem healthcheck_tick_behavior (dial : String → Nat → Bool) (r : Registry)
    (s : Service) :
    isServiceAlive dial s.healthCheckURL
        = (if dial s.healthCheckURL 3 then UP else DOWN) ∧
    (s.status = PAUSE → healthTickService dial s = (s, false)) ∧
    (s.status ≠ PAUSE →
      healthTickService dial s =
        ({ s with status := isServiceAlive dial s.healthCheckURL },
         decide (isServiceAlive dial s.healthCheckURL ≠ s.status))) ∧
    (healthCheckTick dial r).1
        = r.map (fun kv => (kv.1, (healthTickService dial kv.2).1)) ∧
    (healthCheckTick dial r).2
        = r.countP (fun kv => (healthTickService dial kv.2).2) := by
  refine ⟨rfl, ?_, ?_, ?_, ?_⟩
  · intro h
    simp [healthTickService, h]
  · intro h
    by_cases hc : s.status = isServiceAlive dial s.healthCheckURL
    · rw [← hc]
      simp [healthTickService, h, ← hc]
    · have hc' : isServiceAlive dial s.healthCheckURL ≠ s.status := fun hh => hc hh.symm
      simp [healthTickService, h, hc, hc']
  · induction r with
    | nil => simp [healthCheckTick]
    | cons kv rest ih =>
      simp [healthCheckTick, ih]
  · induction r with
    | nil => simp [healthCheckTick]
    | cons kv rest ih =>
      simp [healthCheckTick, ih, List.countP_cons]
      omega

/-- Witness for C4: a paused service is untouched; a `CHECKING` service with
an answering upstream flips to `UP` and triggers one snapshot write. -/
theorem healthcheck_tick_behavior_witness :
    healthTickService dialUp svcPaused = (svcPaused, false) ∧
    healthTickService dialUp svcChecking =
      ({ svcChecking with status := isServiceAlive dialUp svcChecking.healthCheckURL },
       decide (isServiceAlive dialUp svcChecking.healthCheckURL ≠ svcChecking.status)) :=
  ⟨(healthcheck_tick_behavior dialUp [] svcPaused).2.1 (by decide),
   (healthcheck_tick_behavior dialUp [] svcChecking).2.2.1 (by decide)⟩

/-! ### Claim C5 -/

/-- Claim C5 (code bug): a POST registration sent to a two-segment discovery
path is answered 404, but the segment-count branch is missing its `return`:
the handler falls through, decodes the body, and registers the `billing`
service anyway — both directly and when reached through the router. -/
theorem discovery_bad_segment_count_still_registers :
    discovery parse0 reqBadSeg [] =
      { responses := [404], registry := [("billing", svcBilling)], err := none } ∧
    proxyRequest parse0 "api/discovery" [] reqBadSeg =
      ProxyOutcome.delegate
        { responses := [404], registry := [("billing", svcBilling)], err := none } :=
  ⟨rfl, rfl⟩

/-! ### Claim C6 -/

/-- Counterexample to claim C6 as stated, refuting both clauses at concrete
inputs.  First clause: removing with path hint `/orders` from a registry
holding key `orders` is a no-op — the code lower-cases `p[0]`, the *first*
split segment (empty here), not the first *non-empty* segment, so the entry
the claim says gets deleted survives.  Second clause: after removing the
known key `orders` from a registry that also holds `ord`, a subsequent
`findServiceInMap` lookup for the removed prefix (`orders/1`) still returns
`ord`, not "not found". -/
theorem removeService_leading_slash_hint_is_noop :
    goSplitSlash "/orders" = ["", "orders"] ∧
    RemoveService (some "e") regOrders hintSlashOrders = (regOrders, false, none) ∧
    lookupSvc regOrders "orders" = some svcOrders ∧
    RemoveService (some "e") regOrdPair svcOrders =
      ([("ord", svcOrd)], true, some "e") ∧
    lookupSvc [("ord", svcOrd)] "orders" = none ∧
    findServiceInMap [("ord", svcOrd)] "orders/1" = "ord" ∧
    ("ord" : String) ≠ "" :=
  ⟨rfl, rfl, rfl, rfl, rfl, rfl, by decide⟩

/-- Claim C6 (amended): `RemoveService` lower-cases the *first* `/`-split
segment of the hint (empty when the hint starts with `/`) and deletes that
key if present, triggering the snapshot write and returning its outcome; an
absent key is a no-op returning success; and after deleting a known key,
`findServiceInMap` misses every query path that no remaining key matches. -/
theorem removeService_first_segment_spec
    (storeErr : Option String) (r : Registry) (service : Service)
    (p0 : String) (ps : List String)
    (hsplit : goSplitSlash service.path = p0 :: ps) :
    (lookupSvc r (goToLower p0) = none →
      RemoveService storeErr r service = (r, false, none)) ∧
    (∀ s, lookupSvc r (goToLower p0) = some s →
      RemoveService storeErr r service =
        (eraseSvc r (goToLower p0), true, storeErr)) ∧
    (∀ s q, lookupSvc r (goToLower p0) = some s →
      (r.map Prod.fst).Nodup →
      (∀ kv ∈ r, kv.1 ≠ goToLower p0 →
        goHasPfx (goToLower q) (goToLower kv.1) = false) →
      findServiceInMap (eraseSvc r (goToLower p0)) q = "") := by
  refine ⟨?_, ?_, ?_⟩
  · intro habs
    simp [RemoveService, hsplit, habs]
  · intro s hs
    simp [RemoveService, hsplit, hs]
  · intro s q _ hnd hq
    apply findServiceInMap_eq_empty
    intro kv hkv
    exact hq kv (mem_of_mem_eraseSvc hkv)
      (key_ne_of_mem_eraseSvc hnd hkv)

/-- Witness for C6 (amended): an unknown hint is a no-op; removing `orders`
erases it and surfaces the snapshot outcome; afterwards `/orders/1` finds
nothing. -/
theorem removeService_first_segment_spec_witness :
    RemoveService (some "e") regOrders svcBilling = (regOrders, false, none) ∧
    RemoveService (some "e") regOrders svcOrders =
      (eraseSvc regOrders (goToLower "orders"), true, some "e") ∧
    findServiceInMap (eraseSvc regOrders (goToLower "orders")) "orders/1" = "" :=
  ⟨(removeService_first_segment_spec (some "e") regOrders svcBilling "billing" []
      (by decide)).1 (by decide),
   (removeService_first_segment_spec (some "e") regOrders svcOrders "orders" []
      (by decide)).2.1 svcOrders (by decide),
   (removeService_first_segment_spec (some "e") regOrders svcOrders "orders" []
      (by decide)).2.2 svcOrders "orders/1" (by decide) (by decide) (by decide)⟩

/-! ### Claim C7 -/

/-- Every entry produced by the `NewFromConfig` seeding loop has status
`CHECKING` (accumulator invariant). -/
theorem config_seed_status :
    ∀ (cfg : List SnapService) (acc : Registry),
    (∀ kv ∈ acc, kv.2.status = CHECKING) →
    ∀ kv ∈ cfg.foldl
        (fun acc c =>
          insertSvc acc (trimSlashes c.path)
            { host := c.host, path := c.path, healthCheckURL := c.healthCheckURL,
              reverseProxy := c.host, status := CHECKING }) acc,
      kv.2.status = CHECKING
  | [], acc, hacc, kv, hkv => hacc kv hkv
  | c :: rest, acc, hacc, kv, hkv => by
    refine config_seed_status rest _ ?_ kv hkv
    intro kv' hkv'
    rcases mem_insertSvc hkv' with h | h
    · injection h with h1 h2
      rw [h2]
    · exact hacc kv' h

/-- Every entry of a registry built by `LoadFromStorage` from an empty-status
invariant accumulator has the empty status. -/
theorem load_storage_status (parse : String → Option URL) :
    ∀ (snap : List (String × SnapService)) (acc : Registry),
    (∀ kv ∈ acc, kv.2.status = "") →
    ∀ kv ∈ (LoadFromStorage parse snap acc).1, kv.2.status = ""
  | [], acc, hacc, kv, hkv => hacc kv (by simpa [LoadFromStorage] using hkv)
  | (k0, v) :: rest, acc, hacc, kv, hkv => by
    rcases hu : parse v.host with _ | u
    · rw [LoadFromStorage, hu] at hkv
      exact hacc kv hkv
    · rw [LoadFromStorage, hu] at hkv
      refine load_storage_status parse rest _ ?_ kv hkv
      intro kv' hkv'
      by_cases hl : 0 < (trimSlashes (loadService v).path).length
      · rw [AddService] at hkv'
        simp only [hl, if_pos] at hkv'
        rcases mem_insertSvc hkv' with h | h
        · injection h with h1 h2
          rw [h2]
          rfl
        · exact hacc kv' h
      · rw [AddService] at hkv'
        simp only [hl, if_neg, if_false] at hkv'
        exact hacc kv' hkv'

/-- Counterexample to claim C7 as stated: reconstructing a service from a
loaded snapshot does not set `CHECKING` — the `Status` field is omitted from
the struct literal in the load loop, so the entry carries the zero-value
empty status. -/
theorem loaded_service_status_not_checking :
    (LoadFromStorage parse0 [("orders", snapOrders)] []).1 = [("orders", svcLoaded)] ∧
    svcLoaded.status ≠ CHECKING :=
  ⟨rfl, by decide⟩

/-- Claim C7 (amended): services seeded from static configuration and
services registered through the discovery handler are inserted with status
`CHECKING`; services reconstructed from a loaded snapshot are inserted with
the empty (zero-value) status instead — which, like `CHECKING`, is neither
`UP` nor `PAUSE`. -/
theorem new_service_initial_status :
    (∀ (cfg : List SnapService) (k : String) (s : Service),
      lookupSvc (NewFromConfigServices cfg) k = some s → s.status = CHECKING) ∧
    (∀ (parse : String → Option URL) (req : Request) (r : Registry)
       (b : SnapService) (u : URL),
      req.body = some b →
      0 < b.healthCheckURL.length →
      parse b.host = some u →
      0 < (trimSlashes b.path).length →
      (removeEmptyStr (goSplitSlash req.urlPath)).length = 1 →
      goToLower req.method = "post" →
      lookupSvc (discovery parse req r).registry (goToLower (trimSlashes b.path)) =
        some { host := b.host, path := b.path, status := CHECKING,
               healthCheckURL := b.healthCheckURL, reverseProxy := b.host }) ∧
    (∀ (parse : String → Option URL) (snap : List (String × SnapService))
       (k : String) (s : Service),
      lookupSvc (LoadFromStorage parse snap []).1 k = some s → s.status = "") := by
  refine ⟨?_, ?_, ?_⟩
  · intro cfg k s h
    exact config_seed_status cfg [] (by simp) (k, s) (lookupSvc_mem h)
  · intro parse req r b u hb hhc hu hlen hseg hmeth
    have hhc' : ¬ b.healthCheckURL.length = 0 := Nat.pos_iff_ne_zero.1 hhc
    simp [discovery, hseg, hmeth, discoveryBody, hb, hhc', hu, AddService, hlen,
      lookupSvc_insertSvc]
  · intro parse snap k s h
    exact load_storage_status parse snap [] (by simp) (k, s) (lookupSvc_mem h)

/-- Witness for C7 (amended): a config-seeded service and a discovery-added
service carry `CHECKING`; a snapshot-loaded one carries the empty status. -/
theorem new_service_initial_status_witness :
    svcChecking.status = CHECKING ∧
    lookupSvc (discovery parse0 reqReg []).registry
        (goToLower (trimSlashes bBilling.path)) =
      some { host := bBilling.host, path := bBilling.path, status := CHECKING,
             healthCheckURL := bBilling.healthCheckURL,
             reverseProxy := bBilling.host } ∧
    svcLoaded.status = "" :=
  ⟨new_service_initial_status.1 [snapOrders] "orders" svcChecking (by decide),
   new_service_initial_status.2.1 parse0 reqReg [] bBilling { host := "u" }
     (by decide) (by decide) (by decide) (by decide) (by decide) (by decide),
   new_service_initial_status.2.2 parse0 [("orders", snapOrders)] "orders"
     svcLoaded (by decide)⟩

/-! ### Claim C3 -/

/-- Counterexample to claim C3 as stated: the `NewFromConfig` seeding loop
keys the entry `/Orders` under the non-lower-cased `Orders`, but the
round-trip through `UpdateStorage` and a fresh `LoadFromStorage` re-keys it
via `AddService` to `orders`, so the key set is not reproduced. -/
theorem snapshot_roundtrip_changes_config_seeded_key :
    NewFromConfigServices cfgUpper =
      [("Orders", { host := "http://u", path := "/Orders", status := CHECKING,
                    healthCheckURL := "h:1", reverseProxy := "http://u" })] ∧
    (LoadFromStorage parse0 (UpdateStorage (NewFromConfigServices cfgUpper)) []).1.map
        Prod.fst = ["orders"] ∧
    (NewFromConfigServices cfgUpper).map Prod.fst = ["Orders"] ∧
    (["orders"] : List String) ≠ ["Orders"] :=
  ⟨rfl, rfl, rfl, by decide⟩

/-- Claim C3 (amended): for a registry whose keys satisfy the invariant
`AddService` establishes — each key is `lower(trim(path))` of its record,
keys are distinct, trimmed paths non-empty — and whose hosts parse,
`UpdateStorage` followed by a fresh registry's `LoadFromStorage` reproduces
the same keys, and each entry keeps its `host`, `path` and `healthCheckURL`
(the status is reset; see C7). -/
theorem snapshot_roundtrip_preserves_registry
    (parse : String → Option URL) (r : Registry)
    (hkey : ∀ kv ∈ r, kv.1 = goToLower (trimSlashes kv.2.path))
    (hlen : ∀ kv ∈ r, 0 < (trimSlashes kv.2.path).length)
    (hnd : (r.map Prod.fst).Nodup)
    (hparse : ∀ kv ∈ r, (parse kv.2.host).isSome) :
    ((LoadFromStorage parse (UpdateStorage r) []).1.map Prod.fst = r.map Prod.fst) ∧
    (∀ k s, lookupSvc r k = some s →
      ∃ s', lookupSvc (LoadFromStorage parse (UpdateStorage r) []).1 k = some s' ∧
        s'.host = s.host ∧ s'.path = s.path ∧
        s'.healthCheckURL = s.healthCheckURL) := by
  have hsnap : ∀ kv ∈ UpdateStorage r, ∃ kv0 ∈ r, kv = (kv0.1, snapOfService kv0.2) := by
    intro kv hkv
    rcases List.mem_map.1 hkv with ⟨kv0, h0, h1⟩
    exact ⟨kv0, h0, h1.symm⟩
  have hparse' : ∀ kv ∈ UpdateStorage r, (parse kv.2.host).isSome := by
    intro kv hkv
    rcases hsnap kv hkv with ⟨kv0, h0, h1⟩
    rw [h1]
    exact hparse kv0 h0
  have hlen' : ∀ kv ∈ UpdateStorage r, 0 < (trimSlashes kv.2.path).length := by
    intro kv hkv
    rcases hsnap kv hkv with ⟨kv0, h0, h1⟩
    rw [h1]
    exact hlen kv0 h0
  have habs' : ∀ kv ∈ UpdateStorage r,
      lookupSvc [] (goToLower (trimSlashes kv.2.path)) = none := by
    intro kv _
    rfl
  have hdk : (UpdateStorage r).map (fun kv => goToLower (trimSlashes kv.2.path)) =
      r.map Prod.fst := by
    rw [UpdateStorage, List.map_map]
    exact List.map_congr_left (fun kv _hkv => (hkey kv _hkv).symm)
  have hload := LoadFromStorage_eq_append parse (UpdateStorage r) [] hparse' hlen'
    habs' (by rw [hdk]; exact hnd)
  have hform : (LoadFromStorage parse (UpdateStorage r) []).1 =
      r.map (fun kv => (kv.1, loadService (snapOfService kv.2))) := by
    rw [hload]
    show (UpdateStorage r).map
        (fun kv => (goToLower (trimSlashes kv.2.path), loadService kv.2)) =
      r.map (fun kv => (kv.1, loadService (snapOfService kv.2)))
    rw [UpdateStorage, List.map_map]
    exact List.map_congr_left (fun kv hkv => by
      show (goToLower (trimSlashes kv.2.path), loadService (snapOfService kv.2)) =
        (kv.1, loadService (snapOfService kv.2))
      rw [← hkey kv hkv])
  constructor
  · rw [hform, List.map_map]
    rfl
  · intro k s hs
    have hlkm : lookupSvc (r.map (fun kv => (kv.1, loadService (snapOfService kv.2)))) k
        = (lookupSvc r k).map (fun s0 => loadService (snapOfService s0)) :=
      lookupSvc_map (fun s0 => loadService (snapOfService s0)) r k
    refine ⟨loadService (snapOfService s), ?_, rfl, rfl, rfl⟩
    rw [hform, hlkm, hs]
    rfl

/-- Witness for C3 (amended): the one-service registry `regOrders` survives
the round trip with key and fields intact. -/
theorem snapshot_roundtrip_preserves_registry_witness :
    ((LoadFromStorage parse0 (UpdateStorage regOrders) []).1.map Prod.fst =
      regOrders.map Prod.fst) ∧
    (∃ s', lookupSvc (LoadFromStorage parse0 (UpdateStorage regOrders) []).1 "orders" =
        some s' ∧
      s'.host = svcOrders.host ∧ s'.path = svcOrders.path ∧
      s'.healthCheckURL = svcOrders.healthCheckURL) :=
  ⟨(snapshot_roundtrip_preserves_registry parse0 regOrders (by decide) (by decide)
      (by decide) (by decide)).1,
   (snapshot_roundtrip_preserves_registry parse0 regOrders (by decide) (by decide)
      (by decide) (by decide)).2 "orders" svcOrders (by decide)⟩

end NovisModel
